import Mathlib

/-!
# Verification of `pyface.tasks.tasks_application`

A shallow embedding of the module `pyface/tasks/tasks_application.py`
(classes `TaskFactory` and `TasksApplication`) together with proofs of its
specified properties.

Python methods mutate `self`; here each operation takes the application
state (`AppState`) and returns the resulting state explicitly.  Logging is
modelled by returning the list of emitted log entries, and a Python
exception raised by a factory callable is modelled by `Except.error`.
The external collaborator types (`Task`, `Window`, `TaskWindowLayout`,
`SchemaAddition`, and the base `GUIApplication` operations) are not part of
the source file; they are modelled from the spec, as noted on each.
-/

namespace Pyface

/-- Log levels used by the module: `logger.warning` and `logger.error`. -/
inductive LogLevel where
  | warning
  | error
deriving DecidableEq, Repr

/-- A single log record: level plus formatted message. -/
structure LogEntry where
  level : LogLevel
  msg : String
deriving DecidableEq, Repr

/-- Modelled from the spec: the distinct menu-action factories that the
module wires into schema additions.  `application_bound` records whether the
factory was bound to the application instance (Python
`partial(..., application=self)`); `userAction` stands for arbitrary
user-supplied schema-addition factories. -/
inductive ActionFactory where
  | closeActiveWindowAction (application_bound : Bool)
  | exitAction (application_bound : Bool)
  | taskToggleGroup
  | dockPaneToggleGroup
  | taskWindowToggleGroup (application_bound : Bool)
  | aboutAction (application_bound : Bool)
  | userAction (tag : Nat)
deriving DecidableEq, Repr

/-- Modelled from the spec: `pyface.tasks.action.schema_addition.SchemaAddition`,
a menu-schema extension record with an id, a factory, a menu path, an
optional absolute position within its group, and an optional id of an
addition it must follow. -/
structure SchemaAddition where
  id : String := ""
  factory : ActionFactory
  path : String := ""
  absolute_position : Option String := none
  after : Option String := none
deriving DecidableEq, Repr

/-- Modelled from the spec: an opaque dock-pane factory callable
(`extra_dock_pane_factories` holds plain callables); identified by a tag. -/
structure DockPaneFactory where
  tag : Nat
deriving DecidableEq, Repr

/-- Modelled from the spec: `pyface.tasks.task.Task`, an externally defined
entity identified by `id`, carrying extendable collections of extra actions
and extra dock-pane factories. -/
structure Task where
  id : String := ""
  extra_actions : List SchemaAddition := []
  extra_dock_pane_factories : List DockPaneFactory := []
deriving DecidableEq, Repr

/-- Modelled from the spec: `pyface.tasks.task_window_layout.TaskWindowLayout`,
a value object listing the task ids a window should be populated with plus
window geometry (size and position, `(-1, -1)` meaning toolkit default). -/
structure TaskWindowLayout where
  items : List String := []
  size : Int × Int := (-1, -1)
  position : Int × Int := (-1, -1)
deriving DecidableEq, Repr

/-- Modelled from the spec: `TaskWindowLayout.get_tasks()` returns the
ordered sequence of task ids in the layout. -/
def TaskWindowLayout.get_tasks (l : TaskWindowLayout) : List String :=
  l.items

/-- Modelled from the spec: a task window; owns a list of attached tasks,
the layout applied to it, and zero or one active task. -/
structure Window where
  tasks : List Task := []
  layout : Option TaskWindowLayout := none
  active_task : Option Task := none
deriving DecidableEq, Repr

/-- Modelled from the spec: `TaskWindow.add_task` attaches a task to the
window. -/
def Window.add_task (w : Window) (t : Task) : Window :=
  { w with tasks := w.tasks ++ [t] }

/-- Modelled from the spec: `TaskWindow.set_window_layout` applies a layout
to the window. -/
def Window.set_window_layout (w : Window) (l : TaskWindowLayout) : Window :=
  { w with layout := some l }

/-- `TaskFactory`: an id, a user-visible name, and the factory callable.
The callable is invoked with the keyword argument `id` (the only call site
passes `id=factory.id`), so it is modelled as a function of that id; a
raised Python exception is `Except.error`. -/
structure TaskFactory where
  id : String := ""
  name : String := ""
  factory : String → Except String Task

/-- `TaskFactory.create`: simply calls the `factory` attribute with the
supplied traits; nothing is caught or transformed. -/
def TaskFactory.create (f : TaskFactory) (id : String) : Except String Task :=
  f.factory id

/-- The `TasksApplication` state: its trait attributes, plus the open-window
list and active window inherited from `GUIApplication`. -/
structure AppState where
  tasks : List Task := []
  task_factories : List TaskFactory := []
  default_layout : List TaskWindowLayout := []
  extra_actions : List SchemaAddition := []
  extra_dock_pane_factories : List DockPaneFactory := []
  active_window : Option Window := none
  windows : List Window := []

/-- `TasksApplication._get_task_factory`: linear scan of `task_factories`,
returning the first factory whose `id` equals the argument, else `none`. -/
def _get_task_factory (factories : List TaskFactory) (id : String) :
    Option TaskFactory :=
  match factories with
  | [] => none
  | factory :: rest =>
    if factory.id = id then some factory else _get_task_factory rest id

/-- The mutation `task.extra_actions.extend(self.extra_actions)` and
`task.extra_dock_pane_factories.extend(self.extra_dock_pane_factories)`
performed by `create_task` on the freshly created task. -/
def extend_with_hooks (s : AppState) (t : Task) : Task :=
  { t with
    extra_actions := t.extra_actions ++ s.extra_actions
    extra_dock_pane_factories :=
      t.extra_dock_pane_factories ++ s.extra_dock_pane_factories }

/-- The warning `logger.warning("Could not find task factory {}".format(id))`
emitted by `create_task`. -/
def missing_factory_warning (id : String) : LogEntry :=
  { level := LogLevel.warning
    msg := "Could not find task factory " ++ id }

/-- The error `logger.error('Missing factory for task with ID %r', task_id)`
emitted by `create_window`. -/
def missing_factory_error (id : String) : LogEntry :=
  { level := LogLevel.error
    msg := "Missing factory for task with ID " ++ id }

/-- `TasksApplication.create_task`: looks up the factory by id; if absent,
logs one warning and returns `None`; otherwise calls
`factory.create(id=factory.id)`, extends the task's hook collections with
the application-wide ones and returns the task.  The state component of the
result is the (unmodified) application state. -/
def create_task (s : AppState) (id : String) :
    Except String (AppState × Option Task × List LogEntry) :=
  match _get_task_factory s.task_factories id with
  | none =>
    Except.ok (s, none, [missing_factory_warning id])
  | some factory =>
    match TaskFactory.create factory factory.id with
    | Except.error e => Except.error e
    | Except.ok task => Except.ok (s, some (extend_with_hooks s task), [])

/-- Modelled from the spec: the base application's window-creation primitive
(`GUIApplication.create_window`, invoked as `super().create_window()`),
which constructs a bare window with no tasks, no layout and no active
task. -/
def gui_create_window : Window :=
  {}

/-- The empty `TaskWindowLayout()` that `create_window` substitutes when no
layout is given, carrying only the default window size and position. -/
def empty_task_window_layout : TaskWindowLayout :=
  {}

/-- The `for task_id in layout.get_tasks()` loop of `create_window`: for
each id, create the task; on success attach it to the window with
`window.add_task(task)`, on failure log one error naming the missing
factory id and continue with the remaining ids. -/
def add_layout_tasks (s : AppState) (ids : List String) (w : Window) :
    Except String (AppState × Window × List LogEntry) :=
  match ids with
  | [] => Except.ok (s, w, [])
  | id :: rest =>
    match create_task s id with
    | Except.error e => Except.error e
    | Except.ok (s', topt, logs1) =>
      match topt with
      | some task =>
        match add_layout_tasks s' rest (Window.add_task w task) with
        | Except.error e => Except.error e
        | Except.ok (s'', w', logs2) => Except.ok (s'', w', logs1 ++ logs2)
      | none =>
        match add_layout_tasks s' rest w with
        | Except.error e => Except.error e
        | Except.ok (s'', w', logs2) =>
          Except.ok (s'', w', logs1 ++ [missing_factory_error id] ++ logs2)

/-- `TasksApplication.create_window`: builds a bare window via the base
class; if a layout is supplied, creates and attaches one task per id in
`layout.get_tasks()` (logging an error for each id with no factory),
otherwise substitutes an empty `TaskWindowLayout`; finally applies the
layout with `window.set_window_layout(layout)` and returns the window. -/
def create_window (s : AppState) (layout : Option TaskWindowLayout) :
    Except String (AppState × Window × List LogEntry) :=
  let window := gui_create_window
  match layout with
  | some l =>
    match add_layout_tasks s (TaskWindowLayout.get_tasks l) window with
    | Except.error e => Except.error e
    | Except.ok (s', w, logs) =>
      Except.ok (s', Window.set_window_layout w l, logs)
  | none =>
    Except.ok (s, Window.set_window_layout window empty_task_window_layout, [])

/-- The `for layout in self.default_layout` loop of
`TasksApplication._create_windows`: for each layout, create a window and
assign it to `self.active_window`.  The returned window list is the ordered
trace of the windows created by the loop. -/
def create_windows_loop (s : AppState) (layouts : List TaskWindowLayout) :
    Except String (AppState × List Window × List LogEntry) :=
  match layouts with
  | [] => Except.ok (s, [], [])
  | l :: rest =>
    match create_window s (some l) with
    | Except.error e => Except.error e
    | Except.ok (s', w, logs1) =>
      match create_windows_loop { s' with active_window := some w } rest with
      | Except.error e => Except.error e
      | Except.ok (s'', ws, logs2) => Except.ok (s'', w :: ws, logs1 ++ logs2)

/-- `TasksApplication._create_windows`: create the initial windows from
`default_layout`, making each created window the active window in turn. -/
def _create_windows (s : AppState) :
    Except String (AppState × List Window × List LogEntry) :=
  create_windows_loop s s.default_layout

/-- Modelled from the spec: the base application's generic window-closed
teardown (`GUIApplication._on_window_closed`), which releases the closed
window's handle, i.e. drops it from the open-window list. -/
def gui_on_window_closed (s : AppState) (window : Window) : AppState :=
  { s with windows := s.windows.erase window }

/-- `TasksApplication._on_window_closed`: if the closed window's active
task is tracked in `self.tasks`, remove it (Python `list.remove`, first
occurrence); then delegate to the base class's window-closed handling. -/
def _on_window_closed (s : AppState) (window : Window) : AppState :=
  let tasks1 :=
    match window.active_task with
    | some t => if t ∈ s.tasks then s.tasks.erase t else s.tasks
    | none => s.tasks
  gui_on_window_closed { s with tasks := tasks1 } window

/-- `TasksApplication._get_active_task`: the getter of the derived
`active_task` property — the active window's active task, or `None` when
there is no active window. -/
def _get_active_task (s : AppState) : Option Task :=
  match s.active_window with
  | some w => w.active_task
  | none => none

/-- `TasksApplication._extra_actions_default`: the fixed ordered list of
application-wide menu schema additions. -/
def _extra_actions_default : List SchemaAddition :=
  [ { id := "close_action"
      factory := ActionFactory.closeActiveWindowAction true
      path := "MenuBar/File/close_group" },
    { id := "exit_action"
      factory := ActionFactory.exitAction true
      path := "MenuBar/File/close_group"
      absolute_position := some "last" },
    { id := "TaskToggleGroup"
      factory := ActionFactory.taskToggleGroup
      path := "MenuBar/View" },
    { id := "DockPaneToggleGroup"
      factory := ActionFactory.dockPaneToggleGroup
      path := "MenuBar/View"
      after := some "TaskToggleGroup" },
    { id := "TaskWindowToggleGroup"
      factory := ActionFactory.taskWindowToggleGroup true
      path := "MenuBar/Window" },
    { id := "about_action"
      factory := ActionFactory.aboutAction true
      path := "MenuBar/Help/about_group" } ]

/-- The task that `create_task s i` would attach for id `i`: `none` when no
factory matches (or the callable fails), otherwise the created task with the
application-wide hooks appended. -/
def attached_task (s : AppState) (i : String) : Option Task :=
  match _get_task_factory s.task_factories i with
  | none => none
  | some f =>
    match f.factory f.id with
    | Except.ok t => some (extend_with_hooks s t)
    | Except.error _ => none

/-- Bool test: is an entry an error-level entry? -/
def LogEntry.is_error (entry : LogEntry) : Bool :=
  match entry.level with
  | LogLevel.error => true
  | LogLevel.warning => false

/-- Bool test: is a factory the exit action's factory? -/
def ActionFactory.is_exit : ActionFactory → Bool
  | ActionFactory.exitAction _ => true
  | _ => false

/-- Bool test: is a factory the dock-pane-toggle group's factory? -/
def ActionFactory.is_dock_pane_toggle : ActionFactory → Bool
  | ActionFactory.dockPaneToggleGroup => true
  | _ => false

/-! ## Concrete fixtures used to instantiate the theorems -/

/-- A well-behaved factory registered under id `"a"`. -/
def sample_factory_a : TaskFactory :=
  { id := "a", factory := fun i => Except.ok { id := i } }

/-- A second factory sharing the id `"a"` (shadowed by `sample_factory_a`
in first-match lookup). -/
def sample_factory_a2 : TaskFactory :=
  { id := "a", name := "shadowed", factory := fun i => Except.ok { id := i } }

/-- A factory whose callable raises. -/
def sample_factory_bad : TaskFactory :=
  { id := "x", factory := fun _ => Except.error "boom" }

/-- An application with the single factory `"a"` registered. -/
def sample_state : AppState :=
  { task_factories := [sample_factory_a] }

/-- A layout requesting tasks `"a"` and `"b"`. -/
def sample_layout : TaskWindowLayout :=
  { items := ["a", "b"] }

/-- A concrete running task. -/
def sample_task_a : Task :=
  { id := "a" }

/-- An open window whose active task is `sample_task_a`. -/
def sample_window : Window :=
  { tasks := [sample_task_a], active_task := some sample_task_a }

/-- An application tracking `sample_task_a` in its one open window. -/
def closing_state : AppState :=
  { tasks := [sample_task_a], windows := [sample_window] }

/-- An application with factory `"a"` and a two-window default layout. -/
def startup_state : AppState :=
  { task_factories := [sample_factory_a]
    default_layout := [{ items := ["a"] }, { items := [] }] }

/-- An application whose only factory raises. -/
def bad_state : AppState :=
  { task_factories := [sample_factory_bad] }

/-! ## Helper lemmas about the factory lookup and task creation -/

theorem get_task_factory_none_iff (fs : List TaskFactory) (id : String) :
    _get_task_factory fs id = none ↔ ∀ f ∈ fs, f.id ≠ id := by
  induction fs with
  | nil => simp [_get_task_factory]
  | cons g rest ih =>
    by_cases hg : g.id = id
    · simp [_get_task_factory, hg]
    · simp [_get_task_factory, hg, ih]

theorem get_task_factory_some (fs : List TaskFactory) (id : String)
    (f : TaskFactory) (h : _get_task_factory fs id = some f) :
    f.id = id ∧ ∃ pre post, fs = pre ++ f :: post ∧ ∀ g ∈ pre, g.id ≠ id := by
  induction fs with
  | nil => simp [_get_task_factory] at h
  | cons g rest ih =>
    by_cases hg : g.id = id
    · simp only [_get_task_factory, hg, if_pos] at h
      cases h
      exact ⟨hg, [], rest, rfl, by simp⟩
    · simp only [_get_task_factory, hg, if_neg, not_false_iff] at h
      obtain ⟨hid, pre, post, hfs, hpre⟩ := ih h
      refine ⟨hid, g :: pre, post, by rw [hfs]; rfl, ?_⟩
      intro x hx
      rcases List.mem_cons.mp hx with rfl | hx
      · exact hg
      · exact hpre x hx

theorem get_task_factory_mem (fs : List TaskFactory) (id : String)
    (f : TaskFactory) (h : _get_task_factory fs id = some f) :
    f ∈ fs ∧ f.id = id := by
  obtain ⟨hid, pre, post, hfs, _⟩ := get_task_factory_some fs id f h
  exact ⟨by rw [hfs]; simp, hid⟩

theorem get_task_factory_first (pre : List TaskFactory) (f : TaskFactory)
    (post : List TaskFactory) (id : String) (hf : f.id = id)
    (hpre : ∀ g ∈ pre, g.id ≠ id) :
    _get_task_factory (pre ++ f :: post) id = some f := by
  induction pre with
  | nil => simp [_get_task_factory, hf]
  | cons g rest ih =>
    have hg : g.id ≠ id := hpre g (by simp)
    simp only [List.cons_append, _get_task_factory, hg, if_neg, not_false_iff]
    exact ih (fun x hx => hpre x (List.mem_cons_of_mem g hx))

theorem create_task_of_none (s : AppState) (id : String)
    (h : _get_task_factory s.task_factories id = none) :
    create_task s id = Except.ok (s, none, [missing_factory_warning id]) := by
  simp [create_task, h]

theorem create_task_of_some (s : AppState) (id : String) (f : TaskFactory)
    (t : Task) (hf : _get_task_factory s.task_factories id = some f)
    (ht : f.factory f.id = Except.ok t) :
    create_task s id = Except.ok (s, some (extend_with_hooks s t), []) := by
  simp [create_task, hf, TaskFactory.create, ht]

theorem create_task_of_error (s : AppState) (id : String) (f : TaskFactory)
    (e : String) (hf : _get_task_factory s.task_factories id = some f)
    (he : f.factory f.id = Except.error e) :
    create_task s id = Except.error e := by
  simp [create_task, hf, TaskFactory.create, he]

theorem create_task_state_eq (s : AppState) (id : String) (s' : AppState)
    (r : Option Task × List LogEntry)
    (h : create_task s id = Except.ok (s', r)) : s' = s := by
  cases hf : _get_task_factory s.task_factories id with
  | none =>
    simp only [create_task, hf, Except.ok.injEq, Prod.mk.injEq] at h
    exact h.1.symm
  | some f =>
    cases ht : TaskFactory.create f f.id with
    | error e => simp [create_task, hf, ht] at h
    | ok t =>
      simp only [create_task, hf, ht, Except.ok.injEq, Prod.mk.injEq] at h
      exact h.1.symm

theorem add_layout_tasks_ok (s : AppState)
    (h : ∀ f ∈ s.task_factories, ∃ t, f.factory f.id = Except.ok t)
    (ids : List String) (w : Window) :
    ∃ w' logs, add_layout_tasks s ids w = Except.ok (s, w', logs)
      ∧ w'.tasks = w.tasks ++ ids.filterMap (attached_task s)
      ∧ w'.layout = w.layout
      ∧ w'.active_task = w.active_task
      ∧ logs.filter LogEntry.is_error
          = (ids.filter (fun i => (_get_task_factory s.task_factories i).isNone)).map
              missing_factory_error := by
  induction ids generalizing w with
  | nil => exact ⟨w, [], rfl, by simp, rfl, rfl, by simp⟩
  | cons i rest ih =>
    cases hfac : _get_task_factory s.task_factories i with
    | none =>
      have ct := create_task_of_none s i hfac
      obtain ⟨w', logs, hrec, htasks, hlay, hact, hlogs⟩ := ih w
      refine ⟨w', missing_factory_warning i :: missing_factory_error i :: logs,
        ?_, ?_, hlay, hact, ?_⟩
      · simp [add_layout_tasks, ct, hrec]
      · simpa [attached_task, hfac] using htasks
      · simp [hfac, List.filter, LogEntry.is_error, missing_factory_warning,
          missing_factory_error, hlogs]
    | some f =>
      obtain ⟨t, ht⟩ := h f (get_task_factory_mem s.task_factories i f hfac).1
      have ct := create_task_of_some s i f t hfac ht
      obtain ⟨w', logs, hrec, htasks, hlay, hact, hlogs⟩ :=
        ih (Window.add_task w (extend_with_hooks s t))
      refine ⟨w', logs, ?_, ?_, ?_, ?_, ?_⟩
      · simp [add_layout_tasks, ct, hrec]
      · rw [htasks]
        simp [Window.add_task, attached_task, hfac, ht]
      · rw [hlay]; rfl
      · rw [hact]; rfl
      · simpa [hfac] using hlogs

theorem attached_task_isSome (s : AppState)
    (h : ∀ f ∈ s.task_factories, ∃ t, f.factory f.id = Except.ok t)
    (i : String) :
    (attached_task s i).isSome = (_get_task_factory s.task_factories i).isSome := by
  cases hfac : _get_task_factory s.task_factories i with
  | none => simp [attached_task, hfac]
  | some f =>
    obtain ⟨t, ht⟩ := h f (get_task_factory_mem s.task_factories i f hfac).1
    simp [attached_task, hfac, ht]

theorem filterMap_attached_length (s : AppState)
    (h : ∀ f ∈ s.task_factories, ∃ t, f.factory f.id = Except.ok t)
    (ids : List String) :
    (ids.filterMap (attached_task s)).length
      = (ids.filter
          (fun i => (_get_task_factory s.task_factories i).isSome)).length := by
  induction ids with
  | nil => rfl
  | cons i rest ih =>
    have hsome := attached_task_isSome s h i
    cases hat : attached_task s i with
    | none =>
      rw [hat] at hsome
      simp only [List.filterMap_cons, hat, List.filter_cons, ← hsome,
        Option.isSome_none, ih]
      rfl
    | some t =>
      rw [hat] at hsome
      simp only [List.filterMap_cons, hat, List.filter_cons, ← hsome,
        Option.isSome_some, List.length_cons, ih]
      rfl

/-! ## The claims -/

/-- C1: `create_task(id)` returns a task iff some factory in
`task_factories` has that id; in that case the task is the one produced by
`factory.create(id=factory.id)` with the application-wide `extra_actions`
and `extra_dock_pane_factories` appended, in order, to the task's own
collections; otherwise it returns `None` and emits exactly one warning log
entry.  (The factory callables are assumed to return normally; a raising
callable is the subject of C8.) -/
theorem create_task_spec (s : AppState) (id : String)
    (h : ∀ f ∈ s.task_factories, ∃ t, f.factory f.id = Except.ok t) :
    ((∃ task logs, create_task s id = Except.ok (s, some task, logs))
        ↔ ∃ f ∈ s.task_factories, f.id = id)
    ∧ (∀ f t, _get_task_factory s.task_factories id = some f →
        f.factory f.id = Except.ok t →
        create_task s id = Except.ok (s, some (extend_with_hooks s t), []))
    ∧ (_get_task_factory s.task_factories id = none →
        create_task s id = Except.ok (s, none, [missing_factory_warning id])
          ∧ ¬ ∃ f ∈ s.task_factories, f.id = id) := by
  refine ⟨?_, fun f t hf ht => create_task_of_some s id f t hf ht, ?_⟩
  · constructor
    · rintro ⟨task, logs, htask⟩
      cases hfac : _get_task_factory s.task_factories id with
      | none =>
        rw [create_task_of_none s id hfac] at htask
        simp at htask
      | some f =>
        obtain ⟨hmem, hid⟩ := get_task_factory_mem s.task_factories id f hfac
        exact ⟨f, hmem, hid⟩
    · rintro ⟨f, hmem, hid⟩
      cases hfac : _get_task_factory s.task_factories id with
      | none =>
        exact absurd hid
          ((get_task_factory_none_iff s.task_factories id).mp hfac f hmem)
      | some g =>
        obtain ⟨t, ht⟩ := h g (get_task_factory_mem s.task_factories id g hfac).1
        exact ⟨extend_with_hooks s t, [], create_task_of_some s id g t hfac ht⟩
  · intro hfac
    refine ⟨create_task_of_none s id hfac, ?_⟩
    rintro ⟨f, hmem, hid⟩
    exact (get_task_factory_none_iff s.task_factories id).mp hfac f hmem hid

/-- C5: `_get_task_factory(id)` is a first-match linear lookup by equality
on `id`: it returns the first factory in list order whose id equals the
argument (so of two factories sharing an id, the earlier always wins), and
`none` exactly when no factory matches. -/
theorem get_task_factory_spec (fs : List TaskFactory) (id : String) :
    (∀ f, _get_task_factory fs id = some f →
        f.id = id ∧ ∃ pre post, fs = pre ++ f :: post ∧ ∀ g ∈ pre, g.id ≠ id)
    ∧ (∀ pre f post, fs = pre ++ f :: post → f.id = id →
        (∀ g ∈ pre, g.id ≠ id) → _get_task_factory fs id = some f)
    ∧ (_get_task_factory fs id = none ↔ ∀ f ∈ fs, f.id ≠ id) := by
  refine ⟨fun f hf => get_task_factory_some fs id f hf, ?_,
    get_task_factory_none_iff fs id⟩
  rintro pre f post rfl hf hpre
  exact get_task_factory_first pre f post id hf hpre

/-- C2: with a layout, `create_window` walks `layout.get_tasks()` in order:
every id with a registered factory contributes exactly one attached task,
every id without one contributes exactly one error log entry naming it (and
the remaining ids are still processed); the call never fails for a missing
factory, and the layout is applied to the returned window. -/
theorem create_window_layout_spec (s : AppState) (l : TaskWindowLayout)
    (h : ∀ f ∈ s.task_factories, ∃ t, f.factory f.id = Except.ok t) :
    ∃ w logs, create_window s (some l) = Except.ok (s, w, logs)
      ∧ w.tasks = (TaskWindowLayout.get_tasks l).filterMap (attached_task s)
      ∧ w.tasks.length
          = ((TaskWindowLayout.get_tasks l).filter
              (fun i => (_get_task_factory s.task_factories i).isSome)).length
      ∧ logs.filter LogEntry.is_error
          = ((TaskWindowLayout.get_tasks l).filter
              (fun i => (_get_task_factory s.task_factories i).isNone)).map
              missing_factory_error
      ∧ w.layout = some l := by
  obtain ⟨w', logs, hrun, htasks, _, _, hlogs⟩ :=
    add_layout_tasks_ok s h (TaskWindowLayout.get_tasks l) gui_create_window
  have htasks' : w'.tasks
      = (TaskWindowLayout.get_tasks l).filterMap (attached_task s) := by
    simpa [gui_create_window] using htasks
  refine ⟨Window.set_window_layout w' l, logs, ?_, htasks', ?_, hlogs, rfl⟩
  · simp [create_window, hrun]
  · show w'.tasks.length = _
    rw [htasks']
    exact filterMap_attached_length s h (TaskWindowLayout.get_tasks l)

/-- C6: `create_window(None)` creates a window with zero attached tasks,
substitutes a fresh empty `TaskWindowLayout` (no task ids, default window
size and position only), applies it via `set_window_layout`, and returns
the window, logging nothing. -/
theorem create_window_no_layout_spec (s : AppState) :
    ∃ w, create_window s none = Except.ok (s, w, [])
      ∧ w = Window.set_window_layout gui_create_window empty_task_window_layout
      ∧ w.tasks = []
      ∧ w.layout = some empty_task_window_layout
      ∧ TaskWindowLayout.get_tasks empty_task_window_layout = []
      ∧ empty_task_window_layout
          = { items := [], size := (-1, -1), position := (-1, -1) } :=
  ⟨Window.set_window_layout gui_create_window empty_task_window_layout,
    rfl, rfl, rfl, rfl, rfl, rfl⟩

/-! ## Congruence: `create_task`/`create_window` read only the factory list
and the two hook lists, so states agreeing on those behave alike. -/

theorem create_task_hooks_congr (s₁ s₂ : AppState) (id : String)
    (h1 : s₁.task_factories = s₂.task_factories)
    (h2 : s₁.extra_actions = s₂.extra_actions)
    (h3 : s₁.extra_dock_pane_factories = s₂.extra_dock_pane_factories) :
    create_task s₁ id
      = (create_task s₂ id).map (fun r => (s₁, r.2)) := by
  cases hfac : _get_task_factory s₂.task_factories id with
  | none => simp [create_task, h1, hfac, Except.map]
  | some f =>
    cases ht : TaskFactory.create f f.id with
    | error e => simp [create_task, h1, hfac, ht, Except.map]
    | ok t =>
      simp [create_task, h1, hfac, ht, Except.map, extend_with_hooks, h2, h3]

theorem add_layout_tasks_hooks_congr (s₁ s₂ : AppState)
    (h1 : s₁.task_factories = s₂.task_factories)
    (h2 : s₁.extra_actions = s₂.extra_actions)
    (h3 : s₁.extra_dock_pane_factories = s₂.extra_dock_pane_factories)
    (ids : List String) (w : Window) :
    add_layout_tasks s₁ ids w
      = (add_layout_tasks s₂ ids w).map (fun r => (s₁, r.2)) := by
  induction ids generalizing w with
  | nil => simp [add_layout_tasks, Except.map]
  | cons i rest ih =>
    have hct := create_task_hooks_congr s₁ s₂ i h1 h2 h3
    cases hc2 : create_task s₂ i with
    | error e =>
      rw [hc2] at hct
      simp only [Except.map] at hct
      simp [add_layout_tasks, hct, hc2, Except.map]
    | ok r =>
      obtain ⟨s₂', topt, logs1⟩ := r
      have hs2 : s₂' = s₂ := create_task_state_eq s₂ i s₂' (topt, logs1) hc2
      rw [hs2] at hc2
      rw [hc2] at hct
      simp only [Except.map] at hct
      cases topt with
      | some t =>
        simp only [add_layout_tasks, hct, hc2]
        rw [ih (Window.add_task w t)]
        cases add_layout_tasks s₂ rest (Window.add_task w t) with
        | error e => simp [Except.map]
        | ok r2 =>
          obtain ⟨s3, w3, l3⟩ := r2
          simp [Except.map]
      | none =>
        simp only [add_layout_tasks, hct, hc2]
        rw [ih w]
        cases add_layout_tasks s₂ rest w with
        | error e => simp [Except.map]
        | ok r2 =>
          obtain ⟨s3, w3, l3⟩ := r2
          simp [Except.map]

theorem create_window_hooks_congr (s₁ s₂ : AppState)
    (h1 : s₁.task_factories = s₂.task_factories)
    (h2 : s₁.extra_actions = s₂.extra_actions)
    (h3 : s₁.extra_dock_pane_factories = s₂.extra_dock_pane_factories)
    (layout : Option TaskWindowLayout) :
    create_window s₁ layout
      = (create_window s₂ layout).map (fun r => (s₁, r.2)) := by
  cases layout with
  | none => simp [create_window, Except.map]
  | some l =>
    have hrel := add_layout_tasks_hooks_congr s₁ s₂ h1 h2 h3
      (TaskWindowLayout.get_tasks l) gui_create_window
    cases hrun :
        add_layout_tasks s₂ (TaskWindowLayout.get_tasks l) gui_create_window with
    | error e =>
      rw [hrun] at hrel
      simp only [Except.map] at hrel
      simp [create_window, hrel, hrun, Except.map]
    | ok r =>
      obtain ⟨s₂', w, logs⟩ := r
      rw [hrun] at hrel
      simp only [Except.map] at hrel
      simp [create_window, hrel, hrun, Except.map]

/-! ## The `_create_windows` loop -/

theorem create_windows_loop_ok (s : AppState) (layouts : List TaskWindowLayout)
    (h : ∀ f ∈ s.task_factories, ∃ t, f.factory f.id = Except.ok t) :
    ∃ s' ws logs, create_windows_loop s layouts = Except.ok (s', ws, logs)
      ∧ List.Forall₂
          (fun l w => ∃ lg, create_window s (some l) = Except.ok (s, w, lg))
          layouts ws
      ∧ (layouts = [] → s' = s)
      ∧ (∀ wl, ws.getLast? = some wl → s'.active_window = some wl)
      ∧ s'.tasks = s.tasks := by
  induction layouts generalizing s with
  | nil =>
    exact ⟨s, [], [], rfl, List.Forall₂.nil, fun _ => rfl,
      by intro wl hwl; simp at hwl, rfl⟩
  | cons l rest ih =>
    obtain ⟨w, logs1, hcw, _, _, _, _⟩ := create_window_layout_spec s l h
    obtain ⟨s'', ws, logs2, hrec, hfa, hnil, hlast, htasks⟩ :=
      ih { s with active_window := some w } h
    refine ⟨s'', w :: ws, logs1 ++ logs2, ?_, ?_, ?_, ?_, htasks⟩
    · simp [create_windows_loop, hcw, hrec]
    · refine List.Forall₂.cons ⟨logs1, hcw⟩ (hfa.imp ?_)
      rintro l' w' ⟨lg, hl⟩
      refine ⟨lg, ?_⟩
      rw [create_window_hooks_congr s { s with active_window := some w }
        rfl rfl rfl (some l'), hl]
      rfl
    · intro hcon; cases hcon
    · intro wl hwl
      cases ws with
      | nil =>
        simp at hwl
        subst hwl
        rw [hnil (List.forall₂_nil_right_iff.mp hfa)]
      | cons w2 ws' =>
        exact hlast wl (by simpa using hwl)

/-- C7: `_create_windows` iterates `default_layout` in order, creating one
window per layout via `create_window` (the returned window list is that
ordered trace, matched one-to-one with the layouts) and assigning each to
`active_window`, so the last-created window ends up active. -/
theorem create_windows_spec (s : AppState)
    (h : ∀ f ∈ s.task_factories, ∃ t, f.factory f.id = Except.ok t) :
    ∃ s' ws logs, _create_windows s = Except.ok (s', ws, logs)
      ∧ List.Forall₂
          (fun l w => ∃ lg, create_window s (some l) = Except.ok (s, w, lg))
          s.default_layout ws
      ∧ ws.length = s.default_layout.length
      ∧ (s.default_layout = [] → s' = s)
      ∧ (∀ wl, ws.getLast? = some wl → s'.active_window = some wl) := by
  obtain ⟨s', ws, logs, hrun, hfa, hnil, hlast, _⟩ :=
    create_windows_loop_ok s s.default_layout h
  exact ⟨s', ws, logs, hrun, hfa, hfa.length_eq.symm, hnil, hlast⟩

/-! ## State preservation: no operation writes the application state other
than the window-closed handler, and `_create_windows` only sets
`active_window`. -/

theorem add_layout_tasks_state_eq (s : AppState) (ids : List String) :
    ∀ (w : Window) (s' : AppState) (r : Window × List LogEntry),
      add_layout_tasks s ids w = Except.ok (s', r) → s' = s := by
  induction ids with
  | nil =>
    intro w s' r h
    simp only [add_layout_tasks, Except.ok.injEq, Prod.mk.injEq] at h
    exact h.1.symm
  | cons i rest ih =>
    intro w s' r h
    cases hct : create_task s i with
    | error e => simp [add_layout_tasks, hct] at h
    | ok r1 =>
      obtain ⟨s1, topt, logs1⟩ := r1
      have hs1 : s1 = s := create_task_state_eq s i s1 (topt, logs1) hct
      rw [hs1] at hct
      cases topt with
      | some t =>
        cases hrec : add_layout_tasks s rest (Window.add_task w t) with
        | error e => simp [add_layout_tasks, hct, hrec] at h
        | ok r2 =>
          obtain ⟨s2, w2, logs2⟩ := r2
          simp only [add_layout_tasks, hct, hrec, Except.ok.injEq,
            Prod.mk.injEq] at h
          rw [← h.1]
          exact ih (Window.add_task w t) s2 (w2, logs2) hrec
      | none =>
        cases hrec : add_layout_tasks s rest w with
        | error e => simp [add_layout_tasks, hct, hrec] at h
        | ok r2 =>
          obtain ⟨s2, w2, logs2⟩ := r2
          simp only [add_layout_tasks, hct, hrec, Except.ok.injEq,
            Prod.mk.injEq] at h
          rw [← h.1]
          exact ih w s2 (w2, logs2) hrec

theorem create_window_state_eq (s : AppState) (layout : Option TaskWindowLayout)
    (s' : AppState) (r : Window × List LogEntry)
    (h : create_window s layout = Except.ok (s', r)) : s' = s := by
  cases layout with
  | none =>
    simp only [create_window, Except.ok.injEq, Prod.mk.injEq] at h
    exact h.1.symm
  | some l =>
    cases hrun :
        add_layout_tasks s (TaskWindowLayout.get_tasks l) gui_create_window with
    | error e => simp [create_window, hrun] at h
    | ok r1 =>
      obtain ⟨s1, w1, logs1⟩ := r1
      simp only [create_window, hrun, Except.ok.injEq, Prod.mk.injEq] at h
      rw [← h.1]
      exact add_layout_tasks_state_eq s (TaskWindowLayout.get_tasks l)
        gui_create_window s1 (w1, logs1) hrun

theorem create_windows_loop_tasks_eq (layouts : List TaskWindowLayout) :
    ∀ (s s' : AppState) (r : List Window × List LogEntry),
      create_windows_loop s layouts = Except.ok (s', r) →
        s'.tasks = s.tasks := by
  induction layouts with
  | nil =>
    intro s s' r h
    simp only [create_windows_loop, Except.ok.injEq, Prod.mk.injEq] at h
    rw [← h.1]
  | cons l rest ih =>
    intro s s' r h
    cases hcw : create_window s (some l) with
    | error e => simp [create_windows_loop, hcw] at h
    | ok r1 =>
      obtain ⟨s1, w1, logs1⟩ := r1
      have hs1 : s1 = s := create_window_state_eq s (some l) s1 (w1, logs1) hcw
      cases hrec :
          create_windows_loop { s1 with active_window := some w1 } rest with
      | error e => simp [create_windows_loop, hcw, hrec] at h
      | ok r2 =>
        obtain ⟨s2, ws2, logs2⟩ := r2
        simp only [create_windows_loop, hcw, hrec, Except.ok.injEq,
          Prod.mk.injEq] at h
        rw [← h.1]
        rw [ih { s1 with active_window := some w1 } s2 (ws2, logs2) hrec]
        rw [hs1]

/-! ## The window-closed handler -/

theorem on_window_closed_tasks_some (s : AppState) (window : Window)
    (t0 : Task) (hat : window.active_task = some t0) :
    (_on_window_closed s window).tasks
      = if t0 ∈ s.tasks then s.tasks.erase t0 else s.tasks := by
  simp [_on_window_closed, gui_on_window_closed, hat]

theorem on_window_closed_tasks_none (s : AppState) (window : Window)
    (hat : window.active_task = none) :
    (_on_window_closed s window).tasks = s.tasks := by
  simp [_on_window_closed, gui_on_window_closed, hat]

theorem on_window_closed_windows (s : AppState) (window : Window) :
    (_on_window_closed s window).windows = s.windows.erase window := by
  cases hat : window.active_task with
  | none => simp [_on_window_closed, gui_on_window_closed, hat]
  | some t => simp [_on_window_closed, gui_on_window_closed, hat]

/-- C3: the window-closed handler removes the closed window's active task
from `tasks` when tracked there, leaves `tasks` untouched (without failing)
when the task is absent or the window has none, performs this bookkeeping
before delegating to the base class's teardown, and preserves the invariant
that every tracked task is the active task of exactly one still-open
window. -/
theorem on_window_closed_spec (s : AppState) (window : Window)
    (hnd : s.tasks.Nodup)
    (hinv : ∀ t ∈ s.tasks, ∃! w, w ∈ s.windows ∧ w.active_task = some t) :
    (∀ t, window.active_task = some t → t ∈ s.tasks →
        (_on_window_closed s window).tasks = s.tasks.erase t)
    ∧ (∀ t, window.active_task = some t → t ∉ s.tasks →
        (_on_window_closed s window).tasks = s.tasks)
    ∧ (window.active_task = none → (_on_window_closed s window).tasks = s.tasks)
    ∧ _on_window_closed s window
        = gui_on_window_closed
            { s with tasks := (_on_window_closed s window).tasks } window
    ∧ (∀ t ∈ (_on_window_closed s window).tasks,
        ∃! w, w ∈ (_on_window_closed s window).windows
          ∧ w.active_task = some t) := by
  have hmem : ∀ t, t ∈ (_on_window_closed s window).tasks →
      t ∈ s.tasks ∧ window.active_task ≠ some t := by
    intro t htm
    cases hat : window.active_task with
    | none =>
      rw [on_window_closed_tasks_none s window hat] at htm
      exact ⟨htm, by simp⟩
    | some t0 =>
      rw [on_window_closed_tasks_some s window t0 hat] at htm
      by_cases h0 : t0 ∈ s.tasks
      · rw [if_pos h0] at htm
        obtain ⟨hne, hts⟩ := (List.Nodup.mem_erase_iff hnd).mp htm
        refine ⟨hts, ?_⟩
        intro hc
        exact hne (Option.some_inj.mp hc).symm
      · rw [if_neg h0] at htm
        refine ⟨htm, ?_⟩
        intro hc
        rw [Option.some_inj] at hc
        exact h0 (hc ▸ htm)
  refine ⟨?_, ?_, ?_, ?_, ?_⟩
  · intro t hat hts
    rw [on_window_closed_tasks_some s window t hat, if_pos hts]
  · intro t hat hts
    rw [on_window_closed_tasks_some s window t hat, if_neg hts]
  · intro hat
    rw [on_window_closed_tasks_none s window hat]
  · cases hat : window.active_task with
    | none =>
      rw [on_window_closed_tasks_none s window hat]
      simp [_on_window_closed, gui_on_window_closed, hat]
    | some t =>
      rw [on_window_closed_tasks_some s window t hat]
      simp [_on_window_closed, gui_on_window_closed, hat]
  · intro t htm
    obtain ⟨hts, hne⟩ := hmem t htm
    obtain ⟨w, ⟨hwmem, hwact⟩, huniq⟩ := hinv t hts
    have hww : w ≠ window := by
      intro he
      exact hne (he ▸ hwact)
    refine ⟨w, ⟨?_, hwact⟩, ?_⟩
    · rw [on_window_closed_windows]
      exact (List.mem_erase_of_ne hww).mpr hwmem
    · rintro y ⟨hymem, hyact⟩
      apply huniq
      rw [on_window_closed_windows] at hymem
      exact ⟨List.mem_of_mem_erase hymem, hyact⟩

/-- C4: the derived `active_task` property equals the active window's
active task when there is an active window and `None` otherwise; it is a
pure function of `active_window`, so no stale value survives an
active-window change, and it has no independent setter. -/
theorem active_task_spec (s : AppState) :
    (s.active_window = none → _get_active_task s = none)
    ∧ (∀ w, s.active_window = some w → _get_active_task s = w.active_task)
    ∧ (∀ w, _get_active_task { s with active_window := some w }
        = w.active_task)
    ∧ (∀ s', s'.active_window = s.active_window →
        _get_active_task s' = _get_active_task s) := by
  refine ⟨fun h => by simp [_get_active_task, h],
    fun w h => by simp [_get_active_task, h],
    fun w => by simp [_get_active_task],
    fun s' h => by simp [_get_active_task, h]⟩

/-- C8: a failure of the stored factory callable propagates unchanged both
through `TaskFactory.create` and through `create_task`; neither operation
catches or transforms it. -/
theorem factory_error_propagates (s : AppState) (id kw : String)
    (f : TaskFactory) (e : String) :
    (f.factory kw = Except.error e → TaskFactory.create f kw = Except.error e)
    ∧ (_get_task_factory s.task_factories id = some f →
        f.factory f.id = Except.error e →
        create_task s id = Except.error e) :=
  ⟨fun h => h, fun hf he => create_task_of_error s id f e hf he⟩

/-- C9: the default `extra_actions` list is the fixed ordered list of
schema additions: close-active-window, exit, task-toggle group,
dock-pane-toggle group, task-window-toggle group, about — with exactly one
exit action, placed last within the close group (`absolute_position =
'last'`, same `MenuBar/File/close_group` path as the close action), and
exactly one dock-pane-toggle group positioned immediately after the
task-toggle group (both in list order and via `after = 'TaskToggleGroup'`);
the close, exit, task-window-toggle and about factories are bound to the
application instance. -/
theorem extra_actions_default_spec :
    _extra_actions_default.map (fun a => a.factory)
      = [ActionFactory.closeActiveWindowAction true,
         ActionFactory.exitAction true,
         ActionFactory.taskToggleGroup,
         ActionFactory.dockPaneToggleGroup,
         ActionFactory.taskWindowToggleGroup true,
         ActionFactory.aboutAction true]
    ∧ _extra_actions_default.countP (fun a => a.factory.is_exit) = 1
    ∧ (∀ a ∈ _extra_actions_default, a.factory.is_exit →
        a.absolute_position = some "last" ∧ a.path = "MenuBar/File/close_group")
    ∧ _extra_actions_default.countP (fun a => a.factory.is_dock_pane_toggle) = 1
    ∧ (∀ a ∈ _extra_actions_default, a.factory.is_dock_pane_toggle →
        a.after = some "TaskToggleGroup")
    ∧ (∃ a ∈ _extra_actions_default,
        a.factory = ActionFactory.closeActiveWindowAction true
          ∧ a.path = "MenuBar/File/close_group")
    ∧ (∃ a ∈ _extra_actions_default,
        a.factory = ActionFactory.taskWindowToggleGroup true)
    ∧ (∃ a ∈ _extra_actions_default,
        a.factory = ActionFactory.aboutAction true) := by
  decide

/-- C10: neither `create_task` nor `create_window` (nor the startup
`_create_windows`) changes the `tasks` list; the only mutation of `tasks`
in the module is the removal done by the window-closed handler, which never
adds an element. -/
theorem tasks_frame_spec (s : AppState) (id : String)
    (layout : Option TaskWindowLayout) (window : Window) :
    (∀ s' r, create_task s id = Except.ok (s', r) → s'.tasks = s.tasks)
    ∧ (∀ s' r, create_window s layout = Except.ok (s', r) → s'.tasks = s.tasks)
    ∧ (∀ s' r, _create_windows s = Except.ok (s', r) → s'.tasks = s.tasks)
    ∧ (_on_window_closed s window).tasks.Sublist s.tasks := by
  refine ⟨?_, ?_, ?_, ?_⟩
  · intro s' r h
    rw [create_task_state_eq s id s' r h]
  · intro s' r h
    rw [create_window_state_eq s layout s' r h]
  · intro s' r h
    exact create_windows_loop_tasks_eq s.default_layout s s' r h
  · cases hat : window.active_task with
    | none =>
      rw [on_window_closed_tasks_none s window hat]
    | some t =>
      rw [on_window_closed_tasks_some s window t hat]
      by_cases h0 : t ∈ s.tasks
      · rw [if_pos h0]
        exact List.erase_sublist t s.tasks
      · rw [if_neg h0]

/-! ## Witnesses: the claim theorems instantiated at the fixtures -/

theorem sample_state_factories_ok :
    ∀ f ∈ sample_state.task_factories, ∃ t, f.factory f.id = Except.ok t := by
  intro f hf
  obtain rfl := List.mem_singleton.mp hf
  exact ⟨{ id := "a" }, rfl⟩

theorem startup_state_factories_ok :
    ∀ f ∈ startup_state.task_factories, ∃ t, f.factory f.id = Except.ok t := by
  intro f hf
  obtain rfl := List.mem_singleton.mp hf
  exact ⟨{ id := "a" }, rfl⟩

/-- Witness for C1: registered id `"a"` produces the extended task; unknown
id `"b"` yields `None` plus one warning. -/
theorem create_task_spec_witness :
    create_task sample_state "a"
        = Except.ok (sample_state,
            some (extend_with_hooks sample_state { id := "a" }), [])
    ∧ create_task sample_state "b"
        = Except.ok (sample_state, none, [missing_factory_warning "b"]) := by
  have h := create_task_spec sample_state "a" sample_state_factories_ok
  have h2 := create_task_spec sample_state "b" sample_state_factories_ok
  exact ⟨h.2.1 sample_factory_a { id := "a" } rfl rfl, (h2.2.2 rfl).1⟩

/-- Witness for C2: layout `["a", "b"]` with only `"a"` registered gives a
window with exactly one task and exactly one error entry naming `"b"`. -/
theorem create_window_layout_spec_witness :
    (create_window sample_state (some sample_layout)).map
        (fun r => (r.2.1.tasks.length, r.2.2.filter LogEntry.is_error))
      = Except.ok (1, [missing_factory_error "b"]) := by
  obtain ⟨w, logs, hrun, _, hlen, hlogs, _⟩ :=
    create_window_layout_spec sample_state sample_layout
      sample_state_factories_ok
  rw [hrun]
  simp only [Except.map]
  rw [hlen, hlogs]
  rfl

/-- Witness for C3: closing the only window removes its active task. -/
theorem on_window_closed_spec_witness :
    (_on_window_closed closing_state sample_window).tasks = [] := by
  have hnd : closing_state.tasks.Nodup := by
    simp [closing_state]
  have hinv : ∀ t ∈ closing_state.tasks,
      ∃! w, w ∈ closing_state.windows ∧ w.active_task = some t := by
    intro t ht
    have ht' : t = sample_task_a := by simpa [closing_state] using ht
    subst ht'
    refine ⟨sample_window, ⟨by simp [closing_state], rfl⟩, ?_⟩
    rintro y ⟨hy, _⟩
    simpa [closing_state] using hy
  have h := on_window_closed_spec closing_state sample_window hnd hinv
  rw [h.1 sample_task_a rfl (by simp [closing_state])]
  simp [closing_state]

/-- Witness for C4: with an active window the property is its active task;
with none it is `None`. -/
theorem active_task_spec_witness :
    _get_active_task
        { ({} : AppState) with active_window := some sample_window }
        = some sample_task_a
    ∧ _get_active_task ({} : AppState) = none := by
  refine ⟨?_, (active_task_spec {}).1 rfl⟩
  rw [(active_task_spec {}).2.2.1 sample_window]
  rfl

/-- Witness for C5: of two factories sharing id `"a"`, the first wins; an
unknown id yields `none`. -/
theorem get_task_factory_spec_witness :
    _get_task_factory [sample_factory_a, sample_factory_a2] "a"
        = some sample_factory_a
    ∧ _get_task_factory [sample_factory_a, sample_factory_a2] "z" = none := by
  have h := get_task_factory_spec [sample_factory_a, sample_factory_a2] "a"
  have h2 := get_task_factory_spec [sample_factory_a, sample_factory_a2] "z"
  refine ⟨h.2.1 [] sample_factory_a [sample_factory_a2] rfl rfl ?_,
    h2.2.2.mpr ?_⟩
  · intro g hg
    simp at hg
  · intro f hf
    rcases List.mem_cons.mp hf with rfl | hf
    · intro hc
      exact absurd hc (by decide)
    · obtain rfl := List.mem_singleton.mp hf
      intro hc
      exact absurd hc (by decide)

/-- Witness for C7: a two-layout default creates two windows and leaves an
active window set. -/
theorem create_windows_spec_witness :
    (_create_windows startup_state).map
        (fun r => (r.2.1.length, r.1.active_window.isSome))
      = Except.ok (2, true) := by
  obtain ⟨s', ws, logs, hrun, _, hlen, _, hlast⟩ :=
    create_windows_spec startup_state startup_state_factories_ok
  rw [hrun]
  have hl2 : ws.length = 2 := by rw [hlen]; rfl
  have hne : ws ≠ [] := by
    intro he
    rw [he] at hl2
    simp at hl2
  obtain ⟨wl, hwl⟩ := Option.isSome_iff_exists.mp
    (List.getLast?_isSome.mpr hne)
  have hact := hlast wl hwl
  simp [Except.map, hl2, hact]

/-- Witness for C8: the raising factory's error surfaces unchanged from
both `TaskFactory.create` and `create_task`. -/
theorem factory_error_propagates_witness :
    TaskFactory.create sample_factory_bad "x" = Except.error "boom"
    ∧ create_task bad_state "x" = Except.error "boom" := by
  have h := factory_error_propagates bad_state "x" "x" sample_factory_bad
    "boom"
  exact ⟨h.1 rfl, h.2 rfl rfl⟩

/-- Witness for C10: a concrete `create_task` call leaves `tasks` as it
was, and the close handler only ever shrinks it. -/
theorem tasks_frame_spec_witness :
    (create_task closing_state "b").map (fun r => r.1.tasks)
        = Except.ok closing_state.tasks
    ∧ (_on_window_closed closing_state sample_window).tasks.Sublist
        closing_state.tasks := by
  have hmain := tasks_frame_spec closing_state "b" none sample_window
  have hc : create_task closing_state "b"
      = Except.ok (closing_state, none, [missing_factory_warning "b"]) :=
    create_task_of_none closing_state "b" rfl
  refine ⟨?_, hmain.2.2.2⟩
  have _h1 := hmain.1 closing_state (none, [missing_factory_warning "b"]) hc
  rw [hc]
  simp only [Except.map]

end Pyface
